import Mathlib

/-!
Verification of the vscode-phpcs diagnostic pipeline.

This file gives a shallow embedding of the core of the repository:

* `charcode` helpers (`src/phpcs-server/src/utils/charcode.ts`), used by the
  diagnostic mapper;
* `makeDiagnostic` (`src/phpcs-server/src/linter.ts`), which turns a 1-based
  phpcs message position into a 0-based character range with word/whitespace
  boundary expansion;
* the command construction and short-circuit logic of `PhpcsLinter.lint`
  (`src/phpcs-server/src/linter.ts`), including its semver feature gating;
* the report-to-diagnostics step of the `close` handler of `PhpcsLinter.lint`;
* the composer path resolvers (`src/phpcs-server/src/linter.ts` and
  `src/phpcs/src/resolvers/composer-path-resolver.ts`);
* `PhpcsConfiguration.resolveExecutablePath` (`src/phpcs/src/configuration.ts`);
* the event-level behaviour of `PhpcsServer.validateSingle` and
  `PhpcsServer.onDidCloseDocument` (`src/phpcs-server/src/server.ts`).

Filesystem access, subprocess execution and the JSON wire format are modelled
by explicit parameters (an environment record of filesystem facts, an
`Except`-valued subprocess outcome, an already-parsed report structure with
`Option` fields standing for absent / malformed JSON members).  Strings are
Lean `String`s; JavaScript `charCodeAt` is modelled on code points (all the
characters the predicates below distinguish are ASCII, where the two agree),
with the out-of-range `NaN` result modelled as code 0, which behaves
identically to `NaN` in every predicate used by the source.
-/

/-! ## charcode.ts -/

/-- The predicate `isWhitespace` from `utils/charcode.ts`: HT, LF, VT, FF, CR or space. -/
def isWhitespace (charCode : Nat) : Bool :=
  (9 ≤ charCode && charCode ≤ 13) || charCode == 32

/-- The predicate `isAlphaNumeric` from `utils/charcode.ts`: 0-9, A-Z or a-z. -/
def isAlphaNumeric (charCode : Nat) : Bool :=
  (47 < charCode && charCode < 58) ||
  (64 < charCode && charCode < 91) ||
  (96 < charCode && charCode < 123)

/-- The predicate `isSymbol` from `utils/charcode.ts`: `$` or `@`. -/
def isSymbol (charCode : Nat) : Bool :=
  charCode == 36 || charCode == 64

/-- JavaScript `lineString.charCodeAt(i)`.  Out-of-range access yields `NaN`
in JavaScript; we return 0, which the three predicates above and the
comparison with 95 (underscore) treat exactly like `NaN` (all false). -/
def charCodeAt (s : String) (i : Nat) : Nat :=
  match s.data.get? i with
  | some c => c.toNat
  | none => 0

/-- Recursion core of `jsSplitNewline`: `acc` holds the characters of the
current line in reverse. -/
def jsSplitNewlineGo : List Char → List Char → List String
  | [], acc => [String.mk acc.reverse]
  | c :: cs, acc =>
    if c = '\n' then String.mk acc.reverse :: jsSplitNewlineGo cs []
    else jsSplitNewlineGo cs (c :: acc)

/-- JavaScript `text.split("\n")`: the list of chunks between newline
characters, with empty chunks kept (`"a\n".split("\n") = ["a", ""]`). -/
def jsSplitNewline (s : String) : List String :=
  jsSplitNewlineGo s.data []

/-! ## phpcs messages and diagnostics -/

/-- One entry of a phpcs JSON report (`PhpcsMessage` in `linter.ts`). -/
structure PhpcsMessage where
  message : String
  severity : Nat
  type : String
  line : Nat
  column : Nat
  fixable : Bool
  source : Option String
deriving DecidableEq, Repr

inductive DiagnosticSeverity where
  | error
  | warning
deriving DecidableEq, Repr

/-- A 0-based character range `[startLine, startCharacter, endLine,
endCharacter)` as published by the server. -/
structure DiagRange where
  startLine : Nat
  startCharacter : Nat
  endLine : Nat
  endCharacter : Nat
deriving DecidableEq, Repr

structure Diagnostic where
  range : DiagRange
  message : String
  severity : DiagnosticSeverity
  source : String
deriving DecidableEq, Repr

/-- Recursion core of `wsForward`; the first argument is the number `len - i`
of loop iterations left, so that the recursion is structural. -/
def wsForwardGo (cc : Nat → Nat) : Nat → Nat → Nat → Nat
  | 0, _, e => e
  | r + 1, i, e => if isWhitespace (cc i) then wsForwardGo cc r (i + 1) i else e

/-- The whitespace loop of `makeDiagnostic`:
`for (i = start + 1; i < len; i++) { if (!isWhitespace(cc(i))) break; end = i; }`.
`cc` is the line's `charCodeAt`, `e` the running value of `end`. -/
def wsForward (cc : Nat → Nat) (len : Nat) (i e : Nat) : Nat :=
  wsForwardGo cc (len - i) i e

/-- Recursion core of `wordForward`, fuelled the same way. -/
def wordForwardGo (cc : Nat → Nat) : Nat → Nat → Nat → Nat
  | 0, _, e => e
  | r + 1, i, e =>
    if !isAlphaNumeric (cc i) && cc i != 95 then e
    else wordForwardGo cc r (i + 1) (e + 1)

/-- The forward word loop of `makeDiagnostic`:
`for (i = start + 1; i < len; i++) { if (!isAlphaNumeric(cc(i)) && cc(i) !== 95) break; end += 1; }`. -/
def wordForward (cc : Nat → Nat) (len : Nat) (i e : Nat) : Nat :=
  wordForwardGo cc (len - i) i e

/-- The backward word loop of `makeDiagnostic`:
`for (i = start; i > 0; i--) { c = cc(i-1); if (!isAlphaNumeric(c) && !isSymbol(c) && c !== 95) break; start -= 1; }`.
The loop counter and `start` move in lockstep; both are arguments here. -/
def wordBackward (cc : Nat → Nat) : Nat → Nat → Nat
  | 0, s => s
  | i + 1, s =>
    if !isAlphaNumeric (cc i) && !isSymbol (cc i) && cc i != 95 then s
    else wordBackward cc i (s - 1)

/-- The function `makeDiagnostic` from `src/phpcs-server/src/linter.ts`.  The document is
its text; `showSources` is `options.showSources`.  A missing `source` under
`showSources` renders as the string `undefined`, as JavaScript template
interpolation of `undefined` does. -/
def makeDiagnostic (documentText : String) (entry : PhpcsMessage) (showSources : Bool) :
    Diagnostic :=
  let lines := jsSplitNewline documentText
  let line := entry.line - 1
  let lineString := lines.getD line ""
  let cc := charCodeAt lineString
  let len := lineString.length
  let start := entry.column - 1
  let e := entry.column
  let code := cc start
  let se : Nat × Nat :=
    if isWhitespace code then
      (start, wsForward cc len (start + 1) e)
    else if isAlphaNumeric code || isSymbol code then
      (wordBackward cc start start, wordForward cc len (start + 1) e)
    else
      (start, e)
  let severity := if entry.type = "WARNING" then DiagnosticSeverity.warning
    else DiagnosticSeverity.error
  let message :=
    if showSources then
      entry.message ++ "\n(" ++ (match entry.source with
        | some s => s
        | none => "undefined") ++ ")"
    else entry.message
  { range := { startLine := line, startCharacter := se.1,
               endLine := line, endCharacter := se.2 },
    message := message, severity := severity, source := "phpcs" }

/-! ## semantic versions (the `semver` comparisons used by `lint`) -/

structure SemVer where
  major : Nat
  minor : Nat
  patch : Nat
deriving DecidableEq, Repr

/-- The comparison `semver.gte` on plain `major.minor.patch` versions: lexicographic ≥. -/
def SemVer.gte (a b : SemVer) : Bool :=
  if a.major ≠ b.major then a.major > b.major
  else if a.minor ≠ b.minor then a.minor > b.minor
  else a.patch ≥ b.patch

/-! ## `PhpcsLinter.lint`: command construction (`src/phpcs-server/src/linter.ts`)

The subprocess itself is not executed here; `lintPlan` computes what `lint`
does up to the `cs.spawn` call: either it resolves early with a fixed
diagnostic list (empty text, or a local ignore-pattern match on phpcs < 3),
or it spawns the executable with the constructed argument list and stdin
text.  The `minimatch` library is abstracted as a Boolean parameter
`minimatch filePath pattern`; `os.EOL` is modelled as `"\n"` (POSIX). -/

/-- Server-side `PhpcsSettings` (`src/phpcs-server/src/linter.ts`), with
JavaScript `null`/`undefined` members as `Option`. -/
structure PhpcsSettings where
  enable : Bool
  executablePath : Option String
  standard : Option String
  showSources : Bool
  showWarnings : Bool
  ignorePatterns : Option (List String)
  warningSeverity : Nat
  errorSeverity : Nat
deriving DecidableEq, Repr

/-- Decimal rendering of a natural number (JavaScript template interpolation
of a number).  Fuelled so that the kernel can evaluate it. -/
def natDigits : Nat → Nat → List Char
  | 0, _ => []
  | fuel + 1, n =>
    if n < 10 then [Nat.digitChar n]
    else natDigits fuel (n / 10) ++ [Nat.digitChar (n % 10)]

/-- JavaScript `${n}` rendering of a natural number `n`. -/
def natToString (n : Nat) : String :=
  String.mk (natDigits (n + 1) n)

/-- Outcome of `PhpcsLinter.lint` up to the spawn point: `resolved d` means
the promise resolves with `d` and no subprocess is spawned; `spawn args text`
means `cs.spawn(executablePath, args, options)` runs with `text` written to
its standard input. -/
inductive LintPlan where
  | resolved : List Diagnostic → LintPlan
  | spawn : List String → String → LintPlan
deriving DecidableEq, Repr

/-- The argument-list and stdin construction of `PhpcsLinter.lint`
(`linter.ts`, from the empty-text check down to `cs.spawn`).  The source's
early `return resolve([])` statements appear here as the two guard branches;
the sequential `lintArgs.push` calls appear as list concatenation in the
same order. -/
def ignorePatternsActive (settings : PhpcsSettings) (filePath : Option String) : Bool :=
  -- `filePath !== undefined && settings.ignorePatterns !== null && settings.ignorePatterns.length`
  filePath.isSome && settings.ignorePatterns.isSome
    && (settings.ignorePatterns.getD []).length != 0

def lintPlan (version : SemVer) (settings : PhpcsSettings) (filePath : Option String)
    (fileText : String) (minimatch : String → String → Bool) : LintPlan :=
  -- Return empty on empty text.
  if fileText = "" then LintPlan.resolved []
  else if ignorePatternsActive settings filePath && !SemVer.gte version ⟨3, 0, 0⟩
      && (settings.ignorePatterns.getD []).any
        (fun pattern => minimatch (filePath.getD "") pattern) then
    -- ignore match on phpcs < 3: determined locally, lint resolves with no diagnostics
    LintPlan.resolved []
  else
    LintPlan.spawn
      (["--report=json"]
        ++ (if SemVer.gte version ⟨2, 6, 2⟩ then ["-q"] else [])
        ++ (if settings.showSources then ["-s"] else [])
        ++ (if SemVer.gte version ⟨1, 3, 0⟩ then ["--encoding=UTF-8"] else [])
        ++ (match settings.standard with
            | some std => ["--standard=" ++ std]
            | none => [])
        ++ (if ignorePatternsActive settings filePath && SemVer.gte version ⟨3, 0, 0⟩ then
              ["--ignore=" ++ String.intercalate "," (settings.ignorePatterns.getD [])]
            else [])
        ++ ["--error-severity=" ++ natToString settings.errorSeverity]
        ++ ["--warning-severity="
            ++ natToString (if settings.showWarnings then settings.warningSeverity else 0)]
        ++ (match filePath with
            | some fp => if SemVer.gte version ⟨2, 6, 0⟩ then ["--stdin-path=" ++ fp] else []
            | none => [])
        ++ ["-"])
      (match filePath with
        | some fp =>
          if SemVer.gte version ⟨2, 6, 0⟩ then fileText
          else if SemVer.gte version ⟨2, 0, 0⟩ && !SemVer.gte version ⟨2, 6, 0⟩ then
            "phpcs_input_file: " ++ fp ++ "\n" ++ fileText
          else fileText
        | none => fileText)

/-! ## `PhpcsLinter.lint`: report handling on `close` (`linter.ts`)

The `close` handler, after the `ERROR:`/`FATAL ERROR:` pattern checks,
parses stdout as JSON and selects a message list.  The already-parsed report
is modelled structurally: `files = none` stands for a report without a
`files` object, and a file record with `messages = none` for a per-file
record without a `messages` array — member access on those values raises a
`TypeError` in JavaScript, modelled as `Except.error`.  The source's
`resolve([])` calls lack a `return`, so execution continues and throws on
the following destructuring; since the promise is already resolved, that
rejection is ignored and the observed result is still `[]`, which is what
the `Except.ok []` branches return. -/

structure PhpcsReportTotals where
  errors : Nat
  warnings : Nat
  fixable : Nat
deriving DecidableEq, Repr

structure PhpcsReportFile where
  messages : Option (List PhpcsMessage)
deriving DecidableEq, Repr

structure PhpcsReport where
  totals : PhpcsReportTotals
  files : Option (List (String × PhpcsReportFile))
deriving DecidableEq, Repr

/-- JavaScript property access `data.files[key]`. -/
def lookupFile (files : List (String × PhpcsReportFile)) (key : String) :
    Option PhpcsReportFile :=
  (files.find? (fun kv => kv.1 = key)).map (fun kv => kv.2)

/-- The report-to-diagnostics step of the `close` handler of
`PhpcsLinter.lint` (`linter.ts`).  `realpath` models `fs.realpathSync`;
`showSources` is the `settings` value passed to `makeDiagnostic` as its
options. -/
def reportToDiagnostics (documentText : String) (showSources : Bool)
    (filePath : Option String) (realpath : String → String) (version : SemVer)
    (data : PhpcsReport) : Except String (List Diagnostic) :=
  if filePath.isSome && SemVer.gte version ⟨2, 0, 0⟩ then
    match data.files with
    | none => Except.error "TypeError: cannot read property of undefined"
    | some files =>
      let fileRealPath := realpath (filePath.getD "")
      match lookupFile files fileRealPath with
      | none => Except.ok []
      | some fileReport =>
        match fileReport.messages with
        | none => Except.error "TypeError: cannot read property of undefined"
        | some msgs =>
          Except.ok (msgs.map (fun m => makeDiagnostic documentText m showSources))
  else
    -- PHPCS v1 (or an in-memory document): messages are keyed under STDIN
    match data.files with
    | none => Except.error "TypeError: cannot read property of undefined"
    | some files =>
      match lookupFile files "STDIN" with
      | none => Except.ok []
      | some fileReport =>
        match fileReport.messages with
        | none => Except.error "TypeError: cannot read property of undefined"
        | some msgs =>
          Except.ok (msgs.map (fun m => makeDiagnostic documentText m showSources))

/-! ## composer path resolvers

Two revisions resolve the phpcs binary from a composer project:

* `ComposerPhpcsPathResolver` in `src/phpcs-server/src/linter.ts`
  (`composerResolveServer` below), and
* `ComposerPhpcsPathResolver` in
  `src/phpcs/src/resolvers/composer-path-resolver.ts`
  (`composerResolveClient` below).

Filesystem state is abstracted into an environment record: existence booleans
for `composer.json`/`composer.lock`, the parsed lock-file package-name lists
(`none` = key absent; a failed `JSON.parse` in the source yields `{}`, i.e.
both `none`), the `config.vendor-dir` / `config.bin-dir` overrides from
`composer.json`, and an `fs.existsSync` predicate.  `path.join` is modelled
as POSIX `/`-concatenation.  An `Except.error` models the `throw` of a
configuration-error message; `Except.ok none` is the resolver yielding no
result (`resolvedPath = null`). -/

structure ComposerLockPkgs where
  packages : Option (List String)
  packagesDev : Option (List String)
deriving DecidableEq, Repr

/-- The check `hasComposerDependency` (identical in both revisions): push
`packages-dev` then `packages` when present, and search them for an entry
named `squizlabs/php_codesniffer`. -/
def hasComposerDependency (lock : ComposerLockPkgs) : Bool :=
  let search :=
    (match lock.packagesDev with
     | some pkgs => [pkgs]
     | none => [])
    ++ (match lock.packages with
        | some pkgs => [pkgs]
        | none => [])
  search.any (fun pkgs =>
    (pkgs.filter (fun pkg => pkg = "squizlabs/php_codesniffer")).length ≠ 0)

/-- POSIX `path.join` of two segments. -/
def joinPath (a b : String) : String := a ++ "/" ++ b

/-- Environment of the server-side resolver (`linter.ts`). -/
structure ComposerWorkspace where
  workspacePath : String
  composerJsonExists : Bool
  composerLockExists : Bool
  lock : ComposerLockPkgs
  vendorDir : Option String
  binDir : Option String
  fsExists : String → Bool
  phpcsExecutableFile : String

/-- The method `getVendorPath` from `linter.ts`: default `vendor/bin/<exe>` under the
workspace, overridden by `config.vendor-dir` and then `config.bin-dir`. -/
def getVendorPathServer (w : ComposerWorkspace) : String :=
  let vendorPath := joinPath (joinPath (joinPath w.workspacePath "vendor") "bin")
    w.phpcsExecutableFile
  let vendorPath :=
    match w.vendorDir with
    | some dir => joinPath (joinPath (joinPath w.workspacePath dir) "bin") w.phpcsExecutableFile
    | none => vendorPath
  match w.binDir with
  | some dir => joinPath (joinPath w.workspacePath dir) w.phpcsExecutableFile
  | none => vendorPath

/-- The method `ComposerPhpcsPathResolver.resolve` from `src/phpcs-server/src/linter.ts`. -/
def composerResolveServer (w : ComposerWorkspace) : Except String (Option String) :=
  if w.workspacePath ≠ "" then
    if w.composerJsonExists then
      if w.composerLockExists then
        if hasComposerDependency w.lock then
          let vendorPath := getVendorPathServer w
          if w.fsExists vendorPath then Except.ok (some vendorPath)
          else
            Except.error ("Composer phpcs dependency is configured but was not found under "
              ++ vendorPath
              ++ ". You may need to update your dependencies using \"composer update\".")
        else Except.ok none
      else
        Except.error ("A composer configuration file was found at the root of your project "
          ++ "but seems uninitialized. You may need to initialize your dependencies using "
          ++ "\"composer install\".")
    else Except.ok none
  else Except.ok none

/-- Environment of the client-side resolver
(`src/phpcs/src/resolvers/composer-path-resolver.ts`).  `basePath` is
`path.dirname(composerJsonPath)`, the base of the vendor path. -/
structure ComposerClientEnv where
  workspaceRoot : String
  composerJsonExists : Bool
  composerLockExists : Bool
  lock : ComposerLockPkgs
  vendorDir : Option String
  binDir : Option String
  basePath : String
  fsExists : String → Bool
  phpcsExecutableFile : String

/-- The method `getVendorPath` from `composer-path-resolver.ts` (based at the directory
of the resolved `composer.json`). -/
def getVendorPathClient (e : ComposerClientEnv) : String :=
  let vendorPath := joinPath (joinPath (joinPath e.basePath "vendor") "bin")
    e.phpcsExecutableFile
  let vendorPath :=
    match e.vendorDir with
    | some dir => joinPath (joinPath (joinPath e.basePath dir) "bin") e.phpcsExecutableFile
    | none => vendorPath
  match e.binDir with
  | some dir => joinPath (joinPath e.basePath dir) e.phpcsExecutableFile
  | none => vendorPath

/-- The method `ComposerPhpcsPathResolver.resolve` from
`src/phpcs/src/resolvers/composer-path-resolver.ts`.  The thrown message
interpolates `path.relative(workspaceRoot, vendorPath)`; relative-path
display is not modelled, the message carries the vendor path itself. -/
def composerResolveClient (e : ComposerClientEnv) : Except String (Option String) :=
  if e.workspaceRoot ≠ "" then
    if e.composerJsonExists && e.composerLockExists && hasComposerDependency e.lock then
      let vendorPath := getVendorPathClient e
      if e.fsExists vendorPath then Except.ok (some vendorPath)
      else
        Except.error ("Composer phpcs dependency is configured but was not found under "
          ++ vendorPath
          ++ ". You may need to run \"composer install\" or set your phpcs.executablePath "
          ++ "manually.")
    else Except.ok none
  else Except.ok none

/-! ## `PhpcsConfiguration.resolveExecutablePath` (`src/phpcs/src/configuration.ts`) -/

/-- Client-side `PhpcsSettings` (`src/phpcs/src/settings.ts`), as filled by
`PhpcsConfiguration.compute`. -/
structure ClientSettings where
  enable : Bool
  workspaceRoot : Option String
  executablePath : Option String
  composerJsonPath : Option String
  standard : Option String
  showSources : Bool
  showWarnings : Bool
  ignorePatterns : List String
  warningSeverity : Nat
  errorSeverity : Nat
deriving DecidableEq, Repr

/-- POSIX `path.isAbsolute`. -/
def isAbsolutePath (p : String) : Bool :=
  match p.data with
  | '/' :: _ => true
  | _ => false

/-- The method `PhpcsConfiguration.resolveExecutablePath` (`configuration.ts`).  The
fallback resolver chain (`PhpcsPathResolver`, i.e. composer then global) is
abstracted as `resolverResult`: its value is only awaited in the
`executablePath === null` branch, and a rejection there propagates. -/
def resolveExecutablePath (settings : ClientSettings)
    (resolverResult : Except String String) : Except String ClientSettings :=
  match settings.executablePath with
  | none =>
    resolverResult.map (fun p => { settings with executablePath := some p })
  | some p =>
    if isAbsolutePath p = false then
      match settings.workspaceRoot with
      | some root =>
        Except.ok { settings with executablePath := some (joinPath root p) }
      | none => Except.ok settings
    else Except.ok settings

/-! ## `PhpcsServer` (`src/phpcs-server/src/server.ts`)

The server is modelled at the level of its observable effects.  The state
keeps the key sets of the two `Map`s (`validating` and `documentSettings`);
the events are the notifications, diagnostic publications, error messages
and subprocess spawns the handlers produce, in order.  `validateSingle`'s
`await this.getDocumentSettings(document)` is modelled by passing the
resulting `enable` flag; `await PhpcsLinter.create(...)` by `createResult`
(a rejection carries the message that `safeEventHandler` will render); and
`await phpcs.lint(...)` by `lintResult`, preceded by one subprocess spawn. -/

structure ServerState where
  validating : List String
  documentSettings : List String
deriving DecidableEq, Repr

inductive ServerEvent where
  | startNotification : String → ServerEvent
  | endNotification : String → ServerEvent
  | publishDiagnostics : String → List Diagnostic → ServerEvent
  | showError : String → ServerEvent
  | spawnSubprocess : String → ServerEvent
deriving DecidableEq, Repr

/-- JavaScript `Map.set` on the key set. -/
def mapSet (keys : List String) (k : String) : List String :=
  if keys.contains k then keys else k :: keys

/-- JavaScript `Map.delete` on the key set. -/
def mapDelete (keys : List String) (k : String) : List String :=
  keys.filter (fun x => x != k)

/-- The method `PhpcsServer.getExceptionMessage` for a string message: collapse
newlines to spaces and, when the text begins with `ERROR: `, apply
`substr(5)` (which drops exactly the five characters `ERROR`). -/
def collapseNewlines : List Char → List Char
  | [] => []
  | '\r' :: '\n' :: cs => ' ' :: collapseNewlines cs
  | '\n' :: cs => ' ' :: collapseNewlines cs
  | c :: cs => c :: collapseNewlines cs

def getExceptionMessage (message : String) : String :=
  let collapsed := String.mk (collapseNewlines message.data)
  if collapsed.data.take 7 = "ERROR: ".data then collapsed.drop 5 else collapsed

/-- The method `PhpcsServer.validateSingle` (`server.ts`), wrapped in
`safeEventHandler`: a rejected promise is caught and rendered as a
user-visible `phpcs: ...` error message.  Note that only the `lint` step
has a local `catch` that emits the end-validation notification; a rejected
`PhpcsLinter.create` propagates before `sendEndValidationNotification` can
run, leaving the URI in the validating map. -/
def validateSingle (s : ServerState) (uri : String) (enable : Bool)
    (createResult : Except String Unit)
    (lintResult : Except String (List Diagnostic)) : ServerState × List ServerEvent :=
  if s.validating.contains uri then (s, [])
  else if enable then
    -- sendStartValidationNotification: validating.set(uri), then the notification
    let s1 : ServerState := { s with validating := mapSet s.validating uri }
    match createResult with
    | Except.error message =>
      (s1, [ServerEvent.startNotification uri,
            ServerEvent.showError ("phpcs: " ++ message)])
    | Except.ok _ =>
      match lintResult with
      | Except.error message =>
        -- catch: sendEndValidationNotification (validating.delete + notification),
        -- then the rethrown error reaches safeEventHandler
        let s2 : ServerState := { s1 with validating := mapDelete s1.validating uri }
        (s2, [ServerEvent.startNotification uri,
              ServerEvent.spawnSubprocess uri,
              ServerEvent.endNotification uri,
              ServerEvent.showError ("phpcs: " ++ getExceptionMessage message)])
      | Except.ok diagnostics =>
        let s2 : ServerState := { s1 with validating := mapDelete s1.validating uri }
        (s2, [ServerEvent.startNotification uri,
              ServerEvent.spawnSubprocess uri,
              ServerEvent.endNotification uri,
              ServerEvent.publishDiagnostics uri diagnostics])
  else (s, [])

/-- The method `PhpcsServer.onDidCloseDocument` (`server.ts`): drop the cached settings
entry, drop the validating entry, publish an empty diagnostic list. -/
def onDidCloseDocument (s : ServerState) (uri : String) : ServerState × List ServerEvent :=
  let s1 : ServerState := { s with documentSettings := mapDelete s.documentSettings uri }
  let s2 : ServerState := { s1 with validating := mapDelete s1.validating uri }
  (s2, [ServerEvent.publishDiagnostics uri []])

def isSpawnEvent : ServerEvent → Bool
  | ServerEvent.spawnSubprocess _ => true
  | _ => false

/-- Number of subprocess invocations observed in an event trace. -/
def countSpawns (events : List ServerEvent) : Nat :=
  (events.filter isSpawnEvent).length

/-- The client's view of published diagnostics: fold the
`publishDiagnostics` events of a trace into a per-URI map (an association
list, newest entry first). -/
def applyPublish (published : List (String × List Diagnostic)) :
    List ServerEvent → List (String × List Diagnostic)
  | [] => published
  | ServerEvent.publishDiagnostics uri d :: rest =>
    applyPublish ((uri, d) :: published.filter (fun kv => kv.1 != uri)) rest
  | ServerEvent.startNotification _ :: rest => applyPublish published rest
  | ServerEvent.endNotification _ :: rest => applyPublish published rest
  | ServerEvent.showError _ :: rest => applyPublish published rest
  | ServerEvent.spawnSubprocess _ :: rest => applyPublish published rest

/-! ## Helper lemmas about the map-key model -/

theorem contains_mapSet (ks : List String) (k : String) :
    (mapSet ks k).contains k = true := by
  simp only [mapSet]
  by_cases h : ks.contains k = true
  · rw [if_pos h]; exact h
  · rw [if_neg h]; simp [List.contains_cons]

theorem contains_mapDelete (ks : List String) (k : String) :
    (mapDelete ks k).contains k = false := by
  induction ks with
  | nil => rfl
  | cons a as ih =>
    simp only [mapDelete, List.filter_cons] at *
    by_cases hak : a = k
    · rw [if_neg (by simp [hak])]; exact ih
    · rw [if_pos (by simpa using hak)]
      simp [List.contains_cons, ih, Ne.symm hak]

theorem applyPublish_no_publish (p : List (String × List Diagnostic))
    (events : List ServerEvent)
    (h : ∀ uri diagnostics, ServerEvent.publishDiagnostics uri diagnostics ∉ events) :
    applyPublish p events = p := by
  induction events with
  | nil => rfl
  | cons ev rest ih =>
    cases ev with
    | publishDiagnostics uri d => exact absurd (List.mem_cons_self _ _) (fun hm => h uri d hm)
    | startNotification uri =>
      rw [applyPublish]
      exact ih (fun u d hm => h u d (List.mem_cons_of_mem _ hm))
    | endNotification uri =>
      rw [applyPublish]
      exact ih (fun u d hm => h u d (List.mem_cons_of_mem _ hm))
    | showError m =>
      rw [applyPublish]
      exact ih (fun u d hm => h u d (List.mem_cons_of_mem _ hm))
    | spawnSubprocess uri =>
      rw [applyPublish]
      exact ih (fun u d hm => h u d (List.mem_cons_of_mem _ hm))

/-! ## Claims about the server orchestration (C1, C9, C10) -/

/-- C1: for every document URI, at most one validation pipeline run is in
flight at any time.  If a second validation trigger for `uri` arrives while
the first one is outstanding — i.e. after `sendStartValidationNotification`
put `uri` into the validating map and before the end notification removed it
— the second `validateSingle` call changes nothing and emits no events, so
across both triggers exactly one subprocess invocation is observed. -/
theorem validateSingle_single_flight (s : ServerState) (uri : String)
    (lintOne lintTwo : Except String (List Diagnostic)) (enableTwo : Bool)
    (createTwo : Except String Unit)
    (h : s.validating.contains uri = false) :
    validateSingle { s with validating := mapSet s.validating uri } uri
        enableTwo createTwo lintTwo
      = ({ s with validating := mapSet s.validating uri }, []) ∧
    countSpawns (validateSingle s uri true (Except.ok ()) lintOne).2 = 1 ∧
    countSpawns (validateSingle s uri true (Except.ok ()) lintOne).2
      + countSpawns (validateSingle { s with validating := mapSet s.validating uri } uri
          enableTwo createTwo lintTwo).2 = 1 := by
  have hg : ({ s with validating := mapSet s.validating uri } : ServerState).validating.contains uri = true := contains_mapSet s.validating uri
  have h1 : validateSingle { s with validating := mapSet s.validating uri } uri
      enableTwo createTwo lintTwo = ({ s with validating := mapSet s.validating uri }, []) := by
    rw [validateSingle, if_pos hg]
  refine ⟨h1, ?_, ?_⟩
  · rw [validateSingle, if_neg (by simp only [h]; decide)]
    cases lintOne <;> simp [countSpawns, isSpawnEvent]
  · rw [h1]
    rw [validateSingle, if_neg (by simp only [h]; decide)]
    cases lintOne <;> simp [countSpawns, isSpawnEvent]

/-- Witness for `validateSingle_single_flight` at a concrete state. -/
theorem validateSingle_single_flight_witness :
    (⟨[], []⟩ : ServerState).validating.contains "file:///a.php" = false ∧
    countSpawns (validateSingle ⟨[], []⟩ "file:///a.php" true (Except.ok ())
      (Except.ok [])).2 = 1 :=
  ⟨by decide,
   (validateSingle_single_flight ⟨[], []⟩ "file:///a.php" (Except.ok []) (Except.ok [])
      true (Except.ok ()) (by decide)).2.1⟩

/-- C9 (amended): failure handling of `validateSingle`.  When the lint step
fails, the handler emits the end-validation notification, surfaces a
user-visible error message, and publishes no diagnostics, so the previously
published diagnostic map is unchanged.  When `PhpcsLinter.create` fails, the
error is surfaced and nothing is published, but no end-validation
notification is emitted and the URI stays in the validating map.  When the
enable setting is false, the handler does nothing at all — in particular it
does not clear the document's diagnostics. -/
theorem validateSingle_failure_handling (s : ServerState) (uri message createMessage : String)
    (lintResult : Except String (List Diagnostic))
    (published : List (String × List Diagnostic))
    (h : s.validating.contains uri = false) :
    ((validateSingle s uri true (Except.ok ()) (Except.error message)).2
        = [ServerEvent.startNotification uri,
           ServerEvent.spawnSubprocess uri,
           ServerEvent.endNotification uri,
           ServerEvent.showError ("phpcs: " ++ getExceptionMessage message)] ∧
      (∀ u d, ServerEvent.publishDiagnostics u d
          ∉ (validateSingle s uri true (Except.ok ()) (Except.error message)).2) ∧
      applyPublish published
          (validateSingle s uri true (Except.ok ()) (Except.error message)).2
        = published) ∧
    ((validateSingle s uri true (Except.error createMessage) lintResult).2
        = [ServerEvent.startNotification uri,
           ServerEvent.showError ("phpcs: " ++ createMessage)] ∧
      ServerEvent.endNotification uri
          ∉ (validateSingle s uri true (Except.error createMessage) lintResult).2 ∧
      (validateSingle s uri true (Except.error createMessage) lintResult).1.validating.contains
          uri = true ∧
      applyPublish published
          (validateSingle s uri true (Except.error createMessage) lintResult).2
        = published) ∧
    validateSingle s uri false (Except.ok ()) lintResult = (s, []) := by
  have hneg : ¬ (s.validating.contains uri = true) := by simp only [h]; decide
  refine ⟨⟨?_, ?_, ?_⟩, ⟨?_, ?_, ?_, ?_⟩, ?_⟩
  · rw [validateSingle, if_neg hneg]; rfl
  · rw [validateSingle, if_neg hneg]
    intro u d
    simp
  · rw [validateSingle, if_neg hneg]
    simp [applyPublish]
  · rw [validateSingle, if_neg hneg]; rfl
  · rw [validateSingle, if_neg hneg]
    simp
  · rw [validateSingle, if_neg hneg]
    exact contains_mapSet s.validating uri
  · rw [validateSingle, if_neg hneg]
    simp [applyPublish]
  · rw [validateSingle, if_neg hneg]; rfl

/-- Witness for `validateSingle_failure_handling` at a concrete state. -/
theorem validateSingle_failure_handling_witness :
    (⟨[], []⟩ : ServerState).validating.contains "file:///a.php" = false ∧
    validateSingle ⟨[], []⟩ "file:///a.php" false (Except.ok ()) (Except.ok [])
      = (⟨[], []⟩, []) :=
  ⟨by decide,
   (validateSingle_failure_handling ⟨[], []⟩ "file:///a.php" "boom" "missing"
      (Except.ok []) [] (by decide)).2.2⟩

/-- C9 counterexample to the claim as stated: with the enable setting false
`validateSingle` produces no events at all — in particular no empty
`publishDiagnostics`, so diagnostics are not cleared — and when
`PhpcsLinter.create` fails no end-validation notification is emitted. -/
theorem validateSingle_failure_claim_counterexample :
    validateSingle ⟨[], []⟩ "file:///a.php" false (Except.ok ()) (Except.ok []) = (⟨[], []⟩, []) ∧
    (validateSingle ⟨[], []⟩ "file:///a.php" false (Except.ok ()) (Except.ok [])).2.contains
        (ServerEvent.publishDiagnostics "file:///a.php" []) = false ∧
    (validateSingle ⟨[], []⟩ "file:///a.php" true (Except.error "Unable to locate phpcs")
        (Except.ok [])).2.contains (ServerEvent.endNotification "file:///a.php") = false := by
  refine ⟨by decide, by decide, ?_⟩
  rw [validateSingle, if_neg (by decide)]
  decide

/-- C10: `onDidCloseDocument` always publishes an empty diagnostic list for
the closed URI, drops its cached settings entry and drops it from the
validating map — unconditionally, so even while a validation for the URI is
still in flight — after which the single-flight guard is re-armed: a new
`validateSingle` for the URI spawns a subprocess again. -/
theorem onDidCloseDocument_clears (s : ServerState) (uri : String) :
    (onDidCloseDocument s uri).2 = [ServerEvent.publishDiagnostics uri []] ∧
    (onDidCloseDocument s uri).1.documentSettings.contains uri = false ∧
    (onDidCloseDocument s uri).1.validating.contains uri = false ∧
    (∀ lintResult : Except String (List Diagnostic),
      countSpawns (validateSingle (onDidCloseDocument s uri).1 uri true (Except.ok ())
        lintResult).2 = 1) := by
  refine ⟨rfl, contains_mapDelete _ _, contains_mapDelete _ _, ?_⟩
  intro lintResult
  rw [validateSingle,
    if_neg (by simp only [onDidCloseDocument, contains_mapDelete]; decide)]
  cases lintResult <;> simp [countSpawns, isSpawnEvent]

/-! ## Claims about executable-path resolution (C6, C7) -/

/-- C7 (amended): an explicit `executablePath` setting has absolute priority
— when it is non-null the resolver chain is never consulted (the result does
not depend on the resolver's outcome), an absolute path is used as-is, and a
relative path with a workspace root is joined with that root.  A relative
path without a workspace root, however, is passed through unchanged rather
than failing. -/
theorem resolveExecutablePath_priority (settings : ClientSettings) (p : String)
    (resolverOne resolverTwo : Except String String)
    (hset : settings.executablePath = some p) :
    resolveExecutablePath settings resolverOne = resolveExecutablePath settings resolverTwo ∧
    (isAbsolutePath p = true →
      resolveExecutablePath settings resolverOne = Except.ok settings) ∧
    (∀ root, isAbsolutePath p = false → settings.workspaceRoot = some root →
      resolveExecutablePath settings resolverOne
        = Except.ok { settings with executablePath := some (joinPath root p) }) ∧
    (isAbsolutePath p = false → settings.workspaceRoot = none →
      resolveExecutablePath settings resolverOne = Except.ok settings) := by
  refine ⟨?_, ?_, ?_, ?_⟩
  · rw [resolveExecutablePath, resolveExecutablePath, hset]
  · intro habs
    rw [resolveExecutablePath, hset]
    simp [habs]
  · intro root habs hroot
    rw [resolveExecutablePath, hset]
    simp [habs, hroot]
  · intro habs hroot
    rw [resolveExecutablePath, hset]
    simp [habs, hroot]

/-- Witness for `resolveExecutablePath_priority`: a concrete absolute path
is used as-is regardless of the resolver outcome. -/
theorem resolveExecutablePath_priority_witness :
    ({ enable := true, workspaceRoot := some "/ws", executablePath := some "/usr/bin/phpcs",
       composerJsonPath := none, standard := none, showSources := false, showWarnings := true,
       ignorePatterns := [], warningSeverity := 5, errorSeverity := 5 }
        : ClientSettings).executablePath = some "/usr/bin/phpcs" ∧
    resolveExecutablePath
        { enable := true, workspaceRoot := some "/ws", executablePath := some "/usr/bin/phpcs",
          composerJsonPath := none, standard := none, showSources := false, showWarnings := true,
          ignorePatterns := [], warningSeverity := 5, errorSeverity := 5 }
        (Except.error "resolver consulted")
      = Except.ok
        { enable := true, workspaceRoot := some "/ws", executablePath := some "/usr/bin/phpcs",
          composerJsonPath := none, standard := none, showSources := false, showWarnings := true,
          ignorePatterns := [], warningSeverity := 5, errorSeverity := 5 } :=
  ⟨rfl,
   (resolveExecutablePath_priority _ "/usr/bin/phpcs" (Except.error "resolver consulted")
      (Except.ok "ignored") rfl).2.1 (by decide)⟩

/-- C7 counterexample to the claim as stated: a relative `executablePath`
with no workspace root does not make resolution fail — the settings pass
through unchanged, keeping the relative path verbatim. -/
theorem resolveExecutablePath_relative_no_root_counterexample :
    resolveExecutablePath
        { enable := true, workspaceRoot := none, executablePath := some "vendor/bin/phpcs",
          composerJsonPath := none, standard := none, showSources := false, showWarnings := true,
          ignorePatterns := [], warningSeverity := 5, errorSeverity := 5 }
        (Except.error "resolver failed")
      = Except.ok
        { enable := true, workspaceRoot := none, executablePath := some "vendor/bin/phpcs",
          composerJsonPath := none, standard := none, showSources := false, showWarnings := true,
          ignorePatterns := [], warningSeverity := 5, errorSeverity := 5 } := rfl

/-- C6 (amended): both composer resolvers fail with a configuration error
when the lock-file declares the phpcs dependency but the computed vendor
binary path does not exist on disk.  When the manifest exists and the
lock-file is absent, the server-side resolver (`linter.ts`) fails hard,
while the client-side resolver (`composer-path-resolver.ts`) yields no
result and falls through. -/
theorem composerResolve_hard_failures (w : ComposerWorkspace) (e : ComposerClientEnv) :
    (w.workspacePath ≠ "" → w.composerJsonExists = true → w.composerLockExists = false →
      ∃ msg, composerResolveServer w = Except.error msg) ∧
    (w.workspacePath ≠ "" → w.composerJsonExists = true → w.composerLockExists = true →
      hasComposerDependency w.lock = true → w.fsExists (getVendorPathServer w) = false →
      ∃ msg, composerResolveServer w = Except.error msg) ∧
    (e.workspaceRoot ≠ "" → e.composerJsonExists = true → e.composerLockExists = true →
      hasComposerDependency e.lock = true → e.fsExists (getVendorPathClient e) = false →
      ∃ msg, composerResolveClient e = Except.error msg) ∧
    (e.composerJsonExists = true → e.composerLockExists = false →
      composerResolveClient e = Except.ok none) := by
  refine ⟨?_, ?_, ?_, ?_⟩
  · intro hws hjson hlock
    rw [composerResolveServer, if_pos hws, if_pos hjson, if_neg (by simp [hlock])]
    exact ⟨_, rfl⟩
  · intro hws hjson hlock hdep hvendor
    rw [composerResolveServer, if_pos hws, if_pos hjson, if_pos hlock]
    simp [hdep, hvendor]
  · intro hws hjson hlock hdep hvendor
    rw [composerResolveClient, if_pos hws, if_pos (by simp [hjson, hlock, hdep])]
    simp [hvendor]
  · intro hjson hlock
    by_cases hws : e.workspaceRoot ≠ ""
    · rw [composerResolveClient, if_pos hws, if_neg (by simp [hlock])]
    · rw [composerResolveClient, if_neg hws]

/-- Witness for `composerResolve_hard_failures`: a concrete environment in
which the dependency is declared but the vendor binary is missing. -/
theorem composerResolve_hard_failures_witness :
    (("/ws" : String) ≠ "" ∧ hasComposerDependency ⟨some ["squizlabs/php_codesniffer"], none⟩ = true) ∧
    (∃ msg,
      composerResolveServer
        { workspacePath := "/ws", composerJsonExists := true, composerLockExists := true,
          lock := ⟨some ["squizlabs/php_codesniffer"], none⟩, vendorDir := none, binDir := none,
          fsExists := fun _ => false, phpcsExecutableFile := "phpcs" }
        = Except.error msg) :=
  ⟨⟨by decide, by decide⟩,
   (composerResolve_hard_failures
      { workspacePath := "/ws", composerJsonExists := true, composerLockExists := true,
        lock := ⟨some ["squizlabs/php_codesniffer"], none⟩, vendorDir := none, binDir := none,
        fsExists := fun _ => false, phpcsExecutableFile := "phpcs" }
      { workspaceRoot := "", composerJsonExists := false, composerLockExists := false,
        lock := ⟨none, none⟩, vendorDir := none, binDir := none, basePath := "",
        fsExists := fun _ => false, phpcsExecutableFile := "phpcs" }).2.1
     (by decide) rfl rfl (by decide) rfl⟩

/-- C6 counterexample to the claim as stated: in the client-side resolver
(`src/phpcs/src/resolvers/composer-path-resolver.ts`) a present manifest
with an absent lock-file yields no result (`null`), falling through to the
next resolver, instead of failing hard. -/
theorem composerResolveClient_missing_lock_counterexample :
    composerResolveClient
        { workspaceRoot := "/ws", composerJsonExists := true, composerLockExists := false,
          lock := ⟨none, none⟩, vendorDir := none, binDir := none, basePath := "/ws",
          fsExists := fun _ => false, phpcsExecutableFile := "phpcs" }
      = Except.ok none := rfl

/-! ## Claims about report parsing (C3) -/

/-- C3 (amended): the `close` handler never inspects the report's totals.
Whatever the totals say — in particular `errors = 0 ∧ warnings = 0` — a
report whose `files` object is missing makes the parse fail with a
`TypeError`-style rejection; the result is `[]` exactly when the `files`
object is present but has no entry under the looked-up key (the resolved
real path for a saved document on phpcs ≥ 2.0.0, `STDIN` otherwise). -/
theorem reportToDiagnostics_ignores_totals (documentText : String) (showSources : Bool)
    (realpath : String → String) (version : SemVer) (totals : PhpcsReportTotals) :
    (∀ filePath, ∃ msg,
      reportToDiagnostics documentText showSources filePath realpath version
          { totals := totals, files := none } = Except.error msg) ∧
    (∀ files, lookupFile files "STDIN" = none →
      reportToDiagnostics documentText showSources none realpath version
          { totals := totals, files := some files } = Except.ok []) ∧
    (∀ fp files, SemVer.gte version ⟨2, 0, 0⟩ = true →
      lookupFile files (realpath fp) = none →
      reportToDiagnostics documentText showSources (some fp) realpath version
          { totals := totals, files := some files } = Except.ok []) := by
  refine ⟨?_, ?_, ?_⟩
  · intro filePath
    rw [reportToDiagnostics]
    by_cases hc : (filePath.isSome && SemVer.gte version ⟨2, 0, 0⟩) = true
    · rw [if_pos hc]; exact ⟨_, rfl⟩
    · rw [if_neg hc]; exact ⟨_, rfl⟩
  · intro files hlook
    rw [reportToDiagnostics, if_neg (by simp)]
    simp [hlook]
  · intro fp files hversion hlook
    rw [reportToDiagnostics, if_pos (by simp [hversion])]
    simp [hlook]

/-- Witness for `reportToDiagnostics_ignores_totals`: a zero-totals report
whose `files` object lacks the `STDIN` key yields the empty diagnostic
list. -/
theorem reportToDiagnostics_ignores_totals_witness :
    lookupFile [] "STDIN" = none ∧
    reportToDiagnostics "text" false none (fun p => p) ⟨1, 2, 3⟩
        { totals := ⟨0, 0, 0⟩, files := some [] } = Except.ok [] :=
  ⟨rfl,
   (reportToDiagnostics_ignores_totals "text" false (fun p => p) ⟨1, 2, 3⟩ ⟨0, 0, 0⟩).2.1
     [] rfl⟩

/-- C3 counterexample to the claim as stated: a report whose top-level
totals show zero errors and zero warnings but whose `files` object is
missing does not short-circuit to `[]` — the handler throws while reading
`data.files`, so the lint promise is rejected (a parse failure). -/
theorem reportToDiagnostics_zero_totals_counterexample :
    reportToDiagnostics "text" false none (fun p => p) ⟨3, 0, 0⟩
        { totals := ⟨0, 0, 0⟩, files := none }
      = Except.error "TypeError: cannot read property of undefined" := rfl

/-! ## String-prefix helpers for reasoning about argument lists -/

/-- The first `n` characters of a string. -/
def strTake (n : Nat) (s : String) : List Char := s.data.take n

theorem ne_of_strTake (n : Nat) {a b : String} (h : strTake n a ≠ strTake n b) : a ≠ b :=
  fun he => h (he ▸ rfl)

theorem strTake_append (n : Nat) (p x : String) (h : n ≤ p.data.length) :
    strTake n (p ++ x) = strTake n p := by
  simp only [strTake, String.data_append]
  exact List.take_append_of_le_length h

/-- An argument that begins with the nine characters `--ignore=`. -/
def isIgnoreArg (a : String) : Bool :=
  strTake 9 a == "--ignore=".data

theorem isIgnoreArg_append_false (p x : String) (h9 : 9 ≤ p.data.length)
    (hne : strTake 9 p ≠ "--ignore=".data) : isIgnoreArg (p ++ x) = false := by
  rw [isIgnoreArg, strTake_append 9 p x h9]
  exact beq_eq_false_iff_ne.mpr hne

theorem isIgnoreArg_append_true (x : String) : isIgnoreArg ("--ignore=" ++ x) = true := by
  rw [isIgnoreArg, strTake_append 9 _ _ (by decide)]
  decide

theorem isIgnoreArg_standard (x : String) : isIgnoreArg ("--standard=" ++ x) = false :=
  isIgnoreArg_append_false _ _ (by decide) (by decide)

theorem isIgnoreArg_stdinPath (x : String) : isIgnoreArg ("--stdin-path=" ++ x) = false :=
  isIgnoreArg_append_false _ _ (by decide) (by decide)

theorem isIgnoreArg_errorSeverity (x : String) :
    isIgnoreArg ("--error-severity=" ++ x) = false :=
  isIgnoreArg_append_false _ _ (by decide) (by decide)

theorem isIgnoreArg_warningSeverity (x : String) :
    isIgnoreArg ("--warning-severity=" ++ x) = false :=
  isIgnoreArg_append_false _ _ (by decide) (by decide)

/-- C5: on phpcs below 3.0.0, with a known file path and a configured ignore
pattern that matches it, `lint` resolves with zero diagnostics without
spawning a subprocess; at or above 3.0.0 with non-empty ignore patterns the
subprocess is spawned with exactly one `--ignore=` flag joining the
patterns, instead of local matching. -/
theorem lintPlan_ignore_patterns (version : SemVer) (settings : PhpcsSettings)
    (fp fileText : String) (minimatch : String → String → Bool) (pats : List String)
    (hpats : settings.ignorePatterns = some pats) (hne : pats ≠ [])
    (htext : fileText ≠ "") :
    (SemVer.gte version ⟨3, 0, 0⟩ = false →
      pats.any (fun pattern => minimatch fp pattern) = true →
      lintPlan version settings (some fp) fileText minimatch = LintPlan.resolved []) ∧
    (SemVer.gte version ⟨3, 0, 0⟩ = true →
      ∃ args text,
        lintPlan version settings (some fp) fileText minimatch = LintPlan.spawn args text ∧
        args.filter isIgnoreArg = ["--ignore=" ++ String.intercalate "," pats]) := by
  have hlen : pats.length ≠ 0 := fun h => hne (List.eq_nil_of_length_eq_zero h)
  have hc1 : isIgnoreArg "--report=json" = false := by decide
  have hc2 : isIgnoreArg "-q" = false := by decide
  have hc3 : isIgnoreArg "-s" = false := by decide
  have hc4 : isIgnoreArg "--encoding=UTF-8" = false := by decide
  have hc5 : isIgnoreArg "-" = false := by decide
  constructor
  · intro hv hmatch
    rw [lintPlan, if_neg htext, if_pos]
    simp [ignorePatternsActive, hpats, hv, hmatch, hlen]
  · intro hv
    rw [lintPlan, if_neg htext, if_neg (by simp [hv])]
    refine ⟨_, _, rfl, ?_⟩
    simp only [ignorePatternsActive, hpats, Option.getD_some, Option.isSome_some,
      Bool.true_and, hv, Bool.and_true, List.filter_append,
      apply_ite (List.filter isIgnoreArg)]
    simp [List.filter_cons, hc1, hc2, hc3, hc4, hc5, hlen,
      isIgnoreArg_append_true, isIgnoreArg_standard, isIgnoreArg_stdinPath,
      isIgnoreArg_errorSeverity, isIgnoreArg_warningSeverity]
    cases settings.standard with
    | none => simp
    | some std => simp [isIgnoreArg_standard]

/-- Witness for `lintPlan_ignore_patterns` at phpcs 3.0.0 with one
configured pattern. -/
theorem lintPlan_ignore_patterns_witness :
    (["*/vendor/*"] : List String) ≠ [] ∧
    (∃ args text,
      lintPlan ⟨3, 0, 0⟩
          { enable := true, executablePath := none, standard := none, showSources := false,
            showWarnings := true, ignorePatterns := some ["*/vendor/*"],
            warningSeverity := 5, errorSeverity := 5 }
          (some "/ws/a.php") "x" (fun _ _ => false) = LintPlan.spawn args text ∧
      args.filter isIgnoreArg = ["--ignore=" ++ String.intercalate "," ["*/vendor/*"]]) :=
  ⟨by decide,
   (lintPlan_ignore_patterns ⟨3, 0, 0⟩
      { enable := true, executablePath := none, standard := none, showSources := false,
        showWarnings := true, ignorePatterns := some ["*/vendor/*"],
        warningSeverity := 5, errorSeverity := 5 }
      "/ws/a.php" "x" (fun _ _ => false) ["*/vendor/*"] rfl (by decide) (by decide)).2
     (by decide)⟩

theorem ne_append_append_six (p r x y : String) (hp : 6 ≤ p.data.length)
    (hr : 6 ≤ r.data.length) (hne : strTake 6 p ≠ strTake 6 r) : p ++ x ≠ r ++ y :=
  ne_of_strTake 6 (by rw [strTake_append 6 p x hp, strTake_append 6 r y hr]; exact hne)

theorem ne_const_append_six (s r y : String) (hr : 6 ≤ r.data.length)
    (hne : strTake 6 s ≠ strTake 6 r) : s ≠ r ++ y :=
  ne_of_strTake 6 (by rw [strTake_append 6 r y hr]; exact hne)

theorem mem_ite_singleton {a x : String} {c : Prop} [Decidable c] :
    (a ∈ if c then [x] else []) ↔ (c ∧ a = x) := by
  split <;> simp_all

/-- C2 (amended): version gating of the argument list built by `lint`.
Whenever `lint` reaches the spawn point, `-q` is among the arguments iff the
tool version is at least 2.6.2, `--encoding=UTF-8` iff at least 1.3.0, the
joined `--ignore=` flag iff at least 3.0.0 with ignore patterns configured
non-empty *and a file path known*, `--stdin-path=` iff at least 2.6.0 with a
file path known, and the `phpcs_input_file:` preamble is prepended to the
stdin text iff the version is in [2.0.0, 2.6.0) and a file path is known. -/
theorem lintPlan_version_gates (version : SemVer) (settings : PhpcsSettings)
    (fp : Option String) (fileText : String) (minimatch : String → String → Bool)
    (args : List String) (text : String)
    (h : lintPlan version settings fp fileText minimatch = LintPlan.spawn args text) :
    (("-q" ∈ args) ↔ SemVer.gte version ⟨2, 6, 2⟩ = true) ∧
    (("--encoding=UTF-8" ∈ args) ↔ SemVer.gte version ⟨1, 3, 0⟩ = true) ∧
    ((("--ignore=" ++ String.intercalate "," (settings.ignorePatterns.getD [])) ∈ args) ↔
      (SemVer.gte version ⟨3, 0, 0⟩ = true ∧ settings.ignorePatterns.isSome = true ∧
        settings.ignorePatterns.getD [] ≠ [] ∧ fp.isSome = true)) ∧
    (∀ p, fp = some p →
      ((("--stdin-path=" ++ p) ∈ args) ↔ SemVer.gte version ⟨2, 6, 0⟩ = true)) ∧
    (fp = none → ∀ q, ("--stdin-path=" ++ q) ∉ args) ∧
    (∀ p, fp = some p → SemVer.gte version ⟨2, 0, 0⟩ = true →
      SemVer.gte version ⟨2, 6, 0⟩ = false →
      text = "phpcs_input_file: " ++ p ++ "\n" ++ fileText) ∧
    ((fp = none ∨ SemVer.gte version ⟨2, 0, 0⟩ = false ∨ SemVer.gte version ⟨2, 6, 0⟩ = true) →
      text = fileText) := by
  rw [lintPlan.eq_def] at h
  split at h
  · exact absurd h (by simp)
  · split at h
    · exact absurd h (by simp)
    · injection h with hargs htext
      subst hargs htext
      have nq1 : ∀ x : String, "-q" ≠ "--standard=" ++ x :=
        fun x => ne_const_append_six _ _ x (by decide) (by decide)
      have nq2 : ∀ x : String, "-q" ≠ "--ignore=" ++ x :=
        fun x => ne_const_append_six _ _ x (by decide) (by decide)
      have nq3 : ∀ x : String, "-q" ≠ "--error-severity=" ++ x :=
        fun x => ne_const_append_six _ _ x (by decide) (by decide)
      have nq4 : ∀ x : String, "-q" ≠ "--warning-severity=" ++ x :=
        fun x => ne_const_append_six _ _ x (by decide) (by decide)
      have nq5 : ∀ x : String, "-q" ≠ "--stdin-path=" ++ x :=
        fun x => ne_const_append_six _ _ x (by decide) (by decide)
      have ne1 : ∀ x : String, "--encoding=UTF-8" ≠ "--standard=" ++ x :=
        fun x => ne_const_append_six _ _ x (by decide) (by decide)
      have ne2 : ∀ x : String, "--encoding=UTF-8" ≠ "--ignore=" ++ x :=
        fun x => ne_const_append_six _ _ x (by decide) (by decide)
      have ne3 : ∀ x : String, "--encoding=UTF-8" ≠ "--error-severity=" ++ x :=
        fun x => ne_const_append_six _ _ x (by decide) (by decide)
      have ne4 : ∀ x : String, "--encoding=UTF-8" ≠ "--warning-severity=" ++ x :=
        fun x => ne_const_append_six _ _ x (by decide) (by decide)
      have ne5 : ∀ x : String, "--encoding=UTF-8" ≠ "--stdin-path=" ++ x :=
        fun x => ne_const_append_six _ _ x (by decide) (by decide)
      have ni0 : ∀ j : String, "--ignore=" ++ j ≠ "--report=json" :=
        fun j => (ne_const_append_six "--report=json" _ j (by decide) (by decide)).symm
      have ni1 : ∀ j : String, "--ignore=" ++ j ≠ "-q" :=
        fun j => (ne_const_append_six "-q" _ j (by decide) (by decide)).symm
      have ni2 : ∀ j : String, "--ignore=" ++ j ≠ "-s" :=
        fun j => (ne_const_append_six "-s" _ j (by decide) (by decide)).symm
      have ni3 : ∀ j : String, "--ignore=" ++ j ≠ "--encoding=UTF-8" :=
        fun j => (ne_const_append_six "--encoding=UTF-8" _ j (by decide) (by decide)).symm
      have ni4 : ∀ j : String, "--ignore=" ++ j ≠ "-" :=
        fun j => (ne_const_append_six "-" _ j (by decide) (by decide)).symm
      have ni5 : ∀ j x : String, "--ignore=" ++ j ≠ "--standard=" ++ x :=
        fun j x => ne_append_append_six _ _ j x (by decide) (by decide) (by decide)
      have ni6 : ∀ j x : String, "--ignore=" ++ j ≠ "--error-severity=" ++ x :=
        fun j x => ne_append_append_six _ _ j x (by decide) (by decide) (by decide)
      have ni7 : ∀ j x : String, "--ignore=" ++ j ≠ "--warning-severity=" ++ x :=
        fun j x => ne_append_append_six _ _ j x (by decide) (by decide) (by decide)
      have ni8 : ∀ j x : String, "--ignore=" ++ j ≠ "--stdin-path=" ++ x :=
        fun j x => ne_append_append_six _ _ j x (by decide) (by decide) (by decide)
      have ns0 : ∀ q : String, "--stdin-path=" ++ q ≠ "--report=json" :=
        fun q => (ne_const_append_six "--report=json" _ q (by decide) (by decide)).symm
      have ns1 : ∀ q : String, "--stdin-path=" ++ q ≠ "-q" :=
        fun q => (ne_const_append_six "-q" _ q (by decide) (by decide)).symm
      have ns2 : ∀ q : String, "--stdin-path=" ++ q ≠ "-s" :=
        fun q => (ne_const_append_six "-s" _ q (by decide) (by decide)).symm
      have ns3 : ∀ q : String, "--stdin-path=" ++ q ≠ "--encoding=UTF-8" :=
        fun q => (ne_const_append_six "--encoding=UTF-8" _ q (by decide) (by decide)).symm
      have ns4 : ∀ q : String, "--stdin-path=" ++ q ≠ "-" :=
        fun q => (ne_const_append_six "-" _ q (by decide) (by decide)).symm
      have ns5 : ∀ q x : String, "--stdin-path=" ++ q ≠ "--standard=" ++ x :=
        fun q x => ne_append_append_six _ _ q x (by decide) (by decide) (by decide)
      have ns6 : ∀ q x : String, "--stdin-path=" ++ q ≠ "--ignore=" ++ x :=
        fun q x => ne_append_append_six _ _ q x (by decide) (by decide) (by decide)
      have ns7 : ∀ q x : String, "--stdin-path=" ++ q ≠ "--error-severity=" ++ x :=
        fun q x => ne_append_append_six _ _ q x (by decide) (by decide) (by decide)
      have ns8 : ∀ q x : String, "--stdin-path=" ++ q ≠ "--warning-severity=" ++ x :=
        fun q x => ne_append_append_six _ _ q x (by decide) (by decide) (by decide)
      cases hstd : settings.standard with
      | none =>
        cases fp with
        | none =>
          refine ⟨?_, ?_, ?_, ?_, ?_, ?_, ?_⟩ <;>
            simp [hstd, mem_ite_singleton, ignorePatternsActive, List.length_eq_zero,
              nq1, nq2, nq3, nq4, nq5,
              ne1, ne2, ne3, ne4, ne5, ni0, ni1, ni2, ni3, ni4, ni5, ni6, ni7, ni8,
              ns0, ns1, ns2, ns3, ns4, ns5, ns6, ns7, ns8] <;>
            (intros; (try tauto); (try simp_all))
        | some p0 =>
          refine ⟨?_, ?_, ?_, ?_, ?_, ?_, ?_⟩ <;>
            simp [hstd, mem_ite_singleton, ignorePatternsActive, List.length_eq_zero,
              nq1, nq2, nq3, nq4, nq5,
              ne1, ne2, ne3, ne4, ne5, ni0, ni1, ni2, ni3, ni4, ni5, ni6, ni7, ni8,
              ns0, ns1, ns2, ns3, ns4, ns5, ns6, ns7, ns8] <;>
            (intros; (try tauto); (try simp_all))
      | some std =>
        cases fp with
        | none =>
          refine ⟨?_, ?_, ?_, ?_, ?_, ?_, ?_⟩ <;>
            simp [hstd, mem_ite_singleton, ignorePatternsActive, List.length_eq_zero,
              nq1, nq2, nq3, nq4, nq5,
              ne1, ne2, ne3, ne4, ne5, ni0, ni1, ni2, ni3, ni4, ni5, ni6, ni7, ni8,
              ns0, ns1, ns2, ns3, ns4, ns5, ns6, ns7, ns8] <;>
            (intros; (try tauto); (try simp_all))
        | some p0 =>
          refine ⟨?_, ?_, ?_, ?_, ?_, ?_, ?_⟩ <;>
            simp [hstd, mem_ite_singleton, ignorePatternsActive, List.length_eq_zero,
              nq1, nq2, nq3, nq4, nq5,
              ne1, ne2, ne3, ne4, ne5, ni0, ni1, ni2, ni3, ni4, ni5, ni6, ni7, ni8,
              ns0, ns1, ns2, ns3, ns4, ns5, ns6, ns7, ns8] <;>
            (intros; (try tauto); (try simp_all))

/-- C2 counterexample to the claim as stated: at version 3.0.0 with ignore
patterns configured non-empty but no file path (an in-memory document),
`lint` spawns the subprocess without any `--ignore=` flag, so the claimed
iff "`--ignore=` is present iff version ≥ 3.0.0 and patterns are set" fails
without the additional file-path condition. -/
theorem lintPlan_ignore_gate_counterexample :
    lintPlan ⟨3, 0, 0⟩
        { enable := true, executablePath := none, standard := none, showSources := false,
          showWarnings := true, ignorePatterns := some ["*/vendor/*"],
          warningSeverity := 5, errorSeverity := 5 }
        none "x" (fun _ _ => false)
      = LintPlan.spawn
          ["--report=json", "-q", "--encoding=UTF-8", "--error-severity=5",
           "--warning-severity=5", "-"] "x" ∧
    SemVer.gte ⟨3, 0, 0⟩ ⟨3, 0, 0⟩ = true ∧
    (some ["*/vendor/*"] : Option (List String)).isSome = true ∧
    (["*/vendor/*"] : List String) ≠ [] ∧
    ("--ignore=" ++ String.intercalate "," ["*/vendor/*"])
      ∉ ["--report=json", "-q", "--encoding=UTF-8", "--error-severity=5",
         "--warning-severity=5", "-"] := by
  refine ⟨by decide, by decide, by decide, by decide, by decide⟩

/-- Witness for `lintPlan_version_gates` on a concrete spawn at version
2.6.2 with a known file path. -/
theorem lintPlan_version_gates_witness :
    lintPlan ⟨2, 6, 2⟩
        { enable := true, executablePath := none, standard := none, showSources := false,
          showWarnings := true, ignorePatterns := none,
          warningSeverity := 5, errorSeverity := 5 }
        (some "/ws/a.php") "x" (fun _ _ => false)
      = LintPlan.spawn
          ["--report=json", "-q", "--encoding=UTF-8", "--error-severity=5",
           "--warning-severity=5", "--stdin-path=/ws/a.php", "-"] "x" ∧
    (("-q" ∈ ["--report=json", "-q", "--encoding=UTF-8", "--error-severity=5",
        "--warning-severity=5", "--stdin-path=/ws/a.php", "-"]) ↔
      SemVer.gte ⟨2, 6, 2⟩ ⟨2, 6, 2⟩ = true) :=
  ⟨by decide,
   (lintPlan_version_gates ⟨2, 6, 2⟩
      { enable := true, executablePath := none, standard := none, showSources := false,
        showWarnings := true, ignorePatterns := none,
        warningSeverity := 5, errorSeverity := 5 }
      (some "/ws/a.php") "x" (fun _ _ => false)
      ["--report=json", "-q", "--encoding=UTF-8", "--error-severity=5",
       "--warning-severity=5", "--stdin-path=/ws/a.php", "-"] "x" (by decide)).1⟩

/-! ## Behaviour of the boundary-expansion loops -/

theorem wsForwardGo_spec (cc : Nat → Nat) (len m : Nat) (hmlen : m ≤ len)
    (hstop : m = len ∨ isWhitespace (cc m) = false) :
    ∀ d i e, m - i = d → i ≤ m →
      (∀ j, i ≤ j → j < m → isWhitespace (cc j) = true) →
      wsForwardGo cc (len - i) i e = if i = m then e else m - 1 := by
  intro d
  induction d with
  | zero =>
    intro i e hd him _hrun
    have him' : i = m := by omega
    subst him'
    rw [if_pos rfl]
    rcases hstop with hml | hws
    · rw [show len - i = 0 from by omega]
      rfl
    · rcases Nat.eq_or_lt_of_le hmlen with hml | hml
      · rw [show len - i = 0 from by omega]
        rfl
      · obtain ⟨r, hr⟩ : ∃ r, len - i = r + 1 := ⟨len - i - 1, by omega⟩
        rw [hr, wsForwardGo, hws]
        rfl
  | succ d ih =>
    intro i e hd him hrun
    have hlt : i < m := by omega
    obtain ⟨r, hr⟩ : ∃ r, len - i = r + 1 := ⟨len - i - 1, by omega⟩
    rw [hr, wsForwardGo, hrun i (Nat.le_refl i) hlt]
    rw [if_pos rfl, show r = len - (i + 1) from by omega]
    rw [ih (i + 1) i (by omega) (by omega) (fun j h1 h2 => hrun j (by omega) h2)]
    by_cases him1 : i + 1 = m
    · rw [if_pos him1, if_neg (by omega)]
      omega
    · rw [if_neg him1, if_neg (by omega)]

theorem wordForwardGo_spec (cc : Nat → Nat) (len m : Nat) (hmlen : m ≤ len)
    (hstop : m = len ∨ (isAlphaNumeric (cc m) = false ∧ cc m ≠ 95)) :
    ∀ d i e, m - i = d → i ≤ m →
      (∀ j, i ≤ j → j < m → (isAlphaNumeric (cc j) = true ∨ cc j = 95)) →
      wordForwardGo cc (len - i) i e = e + (m - i) := by
  intro d
  induction d with
  | zero =>
    intro i e hd him _hrun
    have him' : i = m := by omega
    subst him'
    rw [Nat.sub_self, Nat.add_zero]
    rcases hstop with hml | hword
    · rw [show len - i = 0 from by omega]
      rfl
    · rcases Nat.eq_or_lt_of_le hmlen with hml | hml
      · rw [show len - i = 0 from by omega]
        rfl
      · obtain ⟨r, hr⟩ : ∃ r, len - i = r + 1 := ⟨len - i - 1, by omega⟩
        rw [hr, wordForwardGo, hword.1]
        simp [bne_iff_ne, hword.2]
  | succ d ih =>
    intro i e hd him hrun
    have hlt : i < m := by omega
    obtain ⟨r, hr⟩ : ∃ r, len - i = r + 1 := ⟨len - i - 1, by omega⟩
    rw [hr, wordForwardGo]
    have hcond : (!isAlphaNumeric (cc i) && cc i != 95) = false := by
      rcases hrun i (Nat.le_refl i) hlt with ha | h95
      · rw [ha]; rfl
      · simp [h95]
    rw [hcond]
    simp only [Bool.false_eq_true, if_false]
    rw [show r = len - (i + 1) from by omega]
    rw [ih (i + 1) (e + 1) (by omega) (by omega) (fun j h1 h2 => hrun j (by omega) h2)]
    omega

theorem wordBackward_stop (cc : Nat → Nat) (i s : Nat)
    (ha : isAlphaNumeric (cc i) = false) (hs : isSymbol (cc i) = false)
    (h95 : cc i ≠ 95) : wordBackward cc (i + 1) s = s := by
  rw [wordBackward, ha, hs]
  simp [bne_iff_ne, h95]

theorem isWhitespace_eq_false_of_isAlphaNumeric (c : Nat)
    (h : isAlphaNumeric c = true) : isWhitespace c = false := by
  have h' : ((47 < c ∧ c < 58) ∨ (64 < c ∧ c < 91)) ∨ (96 < c ∧ c < 123) := by
    simpa [isAlphaNumeric, Bool.or_eq_true, Bool.and_eq_true, decide_eq_true_eq] using h
  simp only [isWhitespace, Bool.or_eq_false_iff, Bool.and_eq_false_iff,
    beq_eq_false_iff_ne, decide_eq_false_iff_not]
  rcases h' with (⟨h1, h2⟩ | ⟨h1, h2⟩) | ⟨h1, h2⟩ <;> omega

/-- C4 (amended): for a message whose anchor character is whitespace, the
produced range starts at the anchor, and its exclusive end is the anchor
plus one when the whitespace run has length one, and otherwise the index of
the *last* whitespace character of the run — so the final character of a
run of length at least two lies outside the range, not inside it. -/
theorem makeDiagnostic_whitespace_run (documentText l : String) (entry : PhpcsMessage)
    (showSources : Bool) (k : Nat)
    (hl : (jsSplitNewline documentText).getD (entry.line - 1) "" = l)
    (hcol : 1 ≤ entry.column) (hk : 1 ≤ k)
    (hrun : ∀ j, j < k → isWhitespace (charCodeAt l (entry.column - 1 + j)) = true)
    (hstop : entry.column - 1 + k = l.length ∨
      isWhitespace (charCodeAt l (entry.column - 1 + k)) = false)
    (hlen : entry.column - 1 + k ≤ l.length) :
    (makeDiagnostic documentText entry showSources).range
      = { startLine := entry.line - 1, startCharacter := entry.column - 1,
          endLine := entry.line - 1,
          endCharacter := if k = 1 then entry.column else entry.column - 1 + k - 1 } := by
  have hws0 : isWhitespace (charCodeAt l (entry.column - 1)) = true := by
    have := hrun 0 (by omega)
    rwa [Nat.add_zero] at this
  have hend : wsForward (charCodeAt l) l.length (entry.column - 1 + 1) entry.column
      = if k = 1 then entry.column else entry.column - 1 + k - 1 := by
    rw [wsForward, show entry.column - 1 + 1 = entry.column from by omega]
    rw [wsForwardGo_spec (charCodeAt l) l.length (entry.column - 1 + k) hlen hstop
      ((entry.column - 1 + k) - entry.column) entry.column entry.column rfl (by omega)
      (fun j h1 h2 => by
        have := hrun (j - (entry.column - 1)) (by omega)
        rwa [show entry.column - 1 + (j - (entry.column - 1)) = j from by omega] at this)]
    by_cases hk1 : k = 1
    · rw [if_pos (show entry.column = entry.column - 1 + k from by omega), if_pos hk1]
    · rw [if_neg (show ¬ entry.column = entry.column - 1 + k from by omega), if_neg hk1]
  simp only [makeDiagnostic, hl]
  rw [if_pos hws0]
  simp only [hend]

/-- Witness for `makeDiagnostic_whitespace_run`: anchor on the first of two
spaces in `ab  c` (message column 3, whitespace run of length 2). -/
theorem makeDiagnostic_whitespace_run_witness :
    (∀ j, j < 2 → isWhitespace (charCodeAt "ab  c" (3 - 1 + j)) = true) ∧
    (makeDiagnostic "ab  c"
        { message := "m", severity := 5, type := "ERROR", line := 1, column := 3,
          fixable := false, source := none } false).range
      = { startLine := 0, startCharacter := 2, endLine := 0,
          endCharacter := if 2 = 1 then 3 else 3 - 1 + 2 - 1 } :=
  ⟨by decide,
   makeDiagnostic_whitespace_run "ab  c" "ab  c"
     { message := "m", severity := 5, type := "ERROR", line := 1, column := 3,
       fixable := false, source := none } false 2
     (by decide) (by decide) (by decide) (by decide) (by decide) (by decide)⟩

/-- C4 counterexample to the claim as stated: in `ab  c` with anchor at
0-based column 2, the whitespace run is positions 2 and 3, but the produced
range is `[2, 3)` — its exclusive end is the index of the last whitespace
character, so that last character (position 3) does not lie inside the
range. -/
theorem makeDiagnostic_whitespace_run_counterexample :
    isWhitespace (charCodeAt "ab  c" 2) = true ∧
    isWhitespace (charCodeAt "ab  c" 3) = true ∧
    isWhitespace (charCodeAt "ab  c" 4) = false ∧
    (makeDiagnostic "ab  c"
        { message := "m", severity := 5, type := "ERROR", line := 1, column := 3,
          fixable := false, source := none } false).range.startCharacter = 2 ∧
    (makeDiagnostic "ab  c"
        { message := "m", severity := 5, type := "ERROR", line := 1, column := 3,
          fixable := false, source := none } false).range.endCharacter = 3 ∧
    ¬ (3 < (makeDiagnostic "ab  c"
        { message := "m", severity := 5, type := "ERROR", line := 1, column := 3,
          fixable := false, source := none } false).range.endCharacter) := by
  decide

/-- C8: a message at line 5, column 10 on a document whose fifth line
carries one alphanumeric word at 0-based positions 9 through 14 (position 8
and position 15 not word characters) maps to exactly the range
`{start: {line: 4, character: 9}, end: {line: 4, character: 15}}`: the end
boundary extends forward over the whole alphanumeric run and the start
boundary stays at 9 because position 8 stops the backward scan. -/
theorem makeDiagnostic_word_token (documentText l mtext mtype : String) (sev : Nat)
    (fix : Bool) (src : Option String) (showSources : Bool)
    (hl : (jsSplitNewline documentText).getD 4 "" = l)
    (hlen : 15 ≤ l.length)
    (hword : ∀ j, 9 ≤ j → j ≤ 14 → isAlphaNumeric (charCodeAt l j) = true)
    (hb1 : isAlphaNumeric (charCodeAt l 8) = false)
    (hb2 : isSymbol (charCodeAt l 8) = false)
    (hb3 : charCodeAt l 8 ≠ 95)
    (hafter : l.length = 15 ∨
      (isAlphaNumeric (charCodeAt l 15) = false ∧ charCodeAt l 15 ≠ 95)) :
    (makeDiagnostic documentText
        { message := mtext, severity := sev, type := mtype, line := 5, column := 10,
          fixable := fix, source := src } showSources).range
      = { startLine := 4, startCharacter := 9, endLine := 4, endCharacter := 15 } := by
  have ha9 : isAlphaNumeric (charCodeAt l 9) = true := hword 9 (Nat.le_refl 9) (by omega)
  have hws9 : isWhitespace (charCodeAt l 9) = false :=
    isWhitespace_eq_false_of_isAlphaNumeric _ ha9
  have hback : wordBackward (charCodeAt l) 9 9 = 9 := by
    have := wordBackward_stop (charCodeAt l) 8 9 hb1 hb2 hb3
    simpa using this
  have hfwd : wordForward (charCodeAt l) l.length 10 10 = 15 := by
    rw [wordForward]
    rw [wordForwardGo_spec (charCodeAt l) l.length 15 hlen
      (by
        rcases hafter with h | h
        · exact Or.inl h.symm
        · exact Or.inr ⟨h.1, h.2⟩)
      (15 - 10) 10 10 rfl (by omega)
      (fun j h1 h2 => Or.inl (hword j (by omega) (by omega)))]
  simp only [makeDiagnostic, hl]
  norm_num
  rw [if_neg (by simp [hws9]), if_pos (by simp [ha9])]
  simp [hback, hfwd]

/-- Witness for `makeDiagnostic_word_token`: the fifth line is nine spaces,
the word `abcdef` at positions 9 to 14, and a semicolon at position 15. -/
theorem makeDiagnostic_word_token_witness :
    (∀ j, 9 ≤ j → j ≤ 14 →
      isAlphaNumeric (charCodeAt "         abcdef;" j) = true) ∧
    (makeDiagnostic "l1\nl2\nl3\nl4\n         abcdef;"
        { message := "m", severity := 5, type := "ERROR", line := 5, column := 10,
          fixable := false, source := none } false).range
      = { startLine := 4, startCharacter := 9, endLine := 4, endCharacter := 15 } :=
  ⟨by decide,
   makeDiagnostic_word_token "l1\nl2\nl3\nl4\n         abcdef;" "         abcdef;"
     "m" "ERROR" 5 false none false
     (by decide) (by decide) (by decide) (by decide) (by decide) (by decide) (by decide)⟩
